import Mathlib

/-
Verification development for the SmartWalker telemetry backend.

Shallow embedding of the real-time fusion, ingest, event-detection,
rollup, proactive-alert and broadcast components:

  * backend/app/services/merge_state.py        (compute_merged)
  * backend/app/routers/ingest.py              (normalization, dedupe,
                                                persistence throttling)
  * backend/app/services/analytics_store.py    (event cooldowns, rollups)
  * backend/app/services/proactive_monitor.py  (proactive suppression,
                                                rate-limited speaking)
  * backend/app/services/ws_manager.py         (broadcast scopes)

Python floats are modelled as rationals; Python dict fields that may be
absent or None are modelled as Option values.  Module-level dicts keyed
by resident id are modelled per resident (state isolation between
residents is immediate from the dict keying), other keyed dicts are
modelled as total functions with the same defaults the code uses.
-/

set_option maxHeartbeats 1000000

namespace SmartWalker

/-! ## Fusion state store: merge_state.py -/

/-- Latest stored walker (device) reading for a resident: the normalized
walker packet dict.  `fsrLeft` and `fsrRight` are required integers in
the packet contract; `tiltDeg` and `steps` are optional. -/
structure WalkerReading where
  ts : Int
  deviceId : Option String := none
  fsrLeft : Int
  fsrRight : Int
  tiltDeg : Option ℚ := none
  steps : Option Int := none
deriving DecidableEq, Repr

/-- Latest stored vision reading for a resident: the normalized vision
packet dict (fields the core never interprets are omitted; they only
pass through payload storage).  The dict produced by the router always
uses the `stepCount` key; `step_count` models the snake-case key that
`compute_merged` also consults on raw dicts. -/
structure VisionReading where
  ts : Int
  cameraId : Option String := none
  fallSuspected : Bool := false
  stepCount : Option Int := none
  step_count : Option Int := none
  cadenceSpm : Option ℚ := none
  stepVar : Option ℚ := none
deriving DecidableEq, Repr

/-- The `metrics` sub-dict of the merged state. -/
structure MergedMetrics where
  steps : Option Int
  tiltDeg : Option ℚ
  reliance : ℚ
  balance : ℚ
  fallSuspected : Bool
deriving DecidableEq, Repr

/-- The merged state dict returned by `compute_merged` (resident id is
the fixed resident of the modelled state and is omitted). -/
structure Merged where
  ts : Int
  walker : Option WalkerReading
  vision : Option VisionReading
  metrics : MergedMetrics
deriving DecidableEq, Repr

/-- The `1e-6` additive epsilon of `compute_merged`. -/
def mergeEps : ℚ := 1 / 1000000

/-- Python truthiness `or` on two optional integers:
`x or y` yields `y` when `x` is `None` or `0`. -/
def pyOrInt (x y : Option Int) : Option Int :=
  match x with
  | some n => if n = 0 then y else some n
  | none => y

/-- `compute_merged(resident_id)` from merge_state.py, as a function of
the current walker and vision readings and the current time `now`
(`now_ts()`). -/
def compute_merged (now : Int) (w : Option WalkerReading) (v : Option VisionReading) :
    Merged :=
  let fsrLeft : Int := (w.map (fun r => r.fsrLeft)).getD 0
  let fsrRight : Int := (w.map (fun r => r.fsrRight)).getD 0
  let total : ℚ := (fsrLeft : ℚ) + (fsrRight : ℚ) + mergeEps
  let balance : ℚ := ((fsrLeft : ℚ) - (fsrRight : ℚ)) / total
  let tilt : Option ℚ := w.bind (fun r => r.tiltDeg)
  let visionStepCount : Option Int :=
    pyOrInt (v.bind (fun r => r.stepCount)) (v.bind (fun r => r.step_count))
  let walkerSteps : Option Int := w.bind (fun r => r.steps)
  let steps : Option Int :=
    match visionStepCount with
    | some n => some n
    | none => walkerSteps
  let fallFromVision : Bool := (v.map (fun r => r.fallSuspected)).getD false
  let walkerTipped : Bool :=
    match tilt with
    | some t => decide (t ≥ 60)
    | none => false
  { ts := max (max ((w.map (fun r => r.ts)).getD 0) ((v.map (fun r => r.ts)).getD 0)) now
    walker := w
    vision := v
    metrics :=
      { steps := steps
        tiltDeg := tilt
        reliance := total
        balance := balance
        fallSuspected := fallFromVision || walkerTipped } }

/-! ## Stream ingest: routers/ingest.py -/

/-- Python truthy-`or` default on an integer setting:
`int(value or default)` maps a zero setting to the default. -/
def pyOrIntVal (v d : Int) : Int :=
  if v = 0 then d else v

/-- The ingest settings consumed by the router (core/config.py). -/
structure IngestConfig where
  persistIntervalSeconds : Int := 5
  riskPersistIntervalSeconds : Int := 1
  storeFullPayloadEveryN : Int := 3
  dedupeWindowMs : Int := 250
deriving DecidableEq, Repr

/-- `max(1, int(settings.ingest_persist_interval_seconds or 5))`. -/
def persistIntervalOf (cfg : IngestConfig) : Int :=
  max 1 (pyOrIntVal cfg.persistIntervalSeconds 5)

/-- `max(1, int(settings.ingest_risk_persist_interval_seconds or 1))`. -/
def riskIntervalOf (cfg : IngestConfig) : Int :=
  max 1 (pyOrIntVal cfg.riskPersistIntervalSeconds 1)

/-- `max(1, persist_interval_seconds // 2)` (analytics cadence). -/
def analyticsIntervalOf (cfg : IngestConfig) : Int :=
  max 1 (persistIntervalOf cfg / 2)

/-- `max(0, int(settings.ingest_dedupe_window_ms or 0))`. -/
def dedupeWindowOf (cfg : IngestConfig) : Int :=
  max 0 cfg.dedupeWindowMs

/-- `_normalize_packet_ts`: absent timestamps become `now`; values above
ten billion are treated as milliseconds; values more than five years in
the past or more than one day in the future are replaced by `now`. -/
def normalize_packet_ts (now : Int) (ts : Option Int) : Int :=
  match ts with
  | none => now
  | some v =>
    let parsed : Int := if v > 10000000000 then v / 1000 else v
    if parsed < now - 86400 * 365 * 5 ∨ parsed > now + 86400 then now else parsed

/-- Payload signature body of a walker packet: the dict minus the `ts`
key.  The SHA-256/JSON encoding of ingest.py is modelled as the identity
on this body (the hash is injective for the purpose of the dedupe
comparison). -/
structure WalkerSigBody where
  deviceId : Option String
  fsrLeft : Int
  fsrRight : Int
  tiltDeg : Option ℚ
  steps : Option Int
deriving DecidableEq, Repr

/-- Payload signature body of a vision packet (dict minus `ts`). -/
structure VisionSigBody where
  cameraId : Option String
  fallSuspected : Bool
  stepCount : Option Int
  step_count : Option Int
  cadenceSpm : Option ℚ
  stepVar : Option ℚ
deriving DecidableEq, Repr

/-- Inbound walker packet (ts still optional, pre-normalization). -/
structure WalkerPacket where
  ts : Option Int := none
  deviceId : Option String := none
  fsrLeft : Int
  fsrRight : Int
  tiltDeg : Option ℚ := none
  steps : Option Int := none
deriving DecidableEq, Repr

/-- Inbound vision packet (ts still optional, pre-normalization). -/
structure VisionPacket where
  ts : Option Int := none
  cameraId : Option String := none
  fallSuspected : Bool := false
  stepCount : Option Int := none
  step_count : Option Int := none
  cadenceSpm : Option ℚ := none
  stepVar : Option ℚ := none
deriving DecidableEq, Repr

def walkerSigBody (p : WalkerPacket) : WalkerSigBody :=
  { deviceId := p.deviceId, fsrLeft := p.fsrLeft, fsrRight := p.fsrRight
    tiltDeg := p.tiltDeg, steps := p.steps }

def visionSigBody (p : VisionPacket) : VisionSigBody :=
  { cameraId := p.cameraId, fallSuspected := p.fallSuspected
    stepCount := p.stepCount, step_count := p.step_count
    cadenceSpm := p.cadenceSpm, stepVar := p.stepVar }

def walkerReadingOf (p : WalkerPacket) (ts : Int) : WalkerReading :=
  { ts := ts, deviceId := p.deviceId, fsrLeft := p.fsrLeft
    fsrRight := p.fsrRight, tiltDeg := p.tiltDeg, steps := p.steps }

def visionReadingOf (p : VisionPacket) (ts : Int) : VisionReading :=
  { ts := ts, cameraId := p.cameraId, fallSuspected := p.fallSuspected
    stepCount := p.stepCount, step_count := p.step_count
    cadenceSpm := p.cadenceSpm, stepVar := p.stepVar }

/-- `_is_duplicate_packet` for one `(streamKind, subjectId)` key: `st`
is the entry of `_LAST_PACKET_SIGNATURE` for that key.  When the window
is positive the entry is overwritten with the new signature and arrival
time even for duplicates; a packet is a duplicate when the previous
signature matches and the previous arrival was within the window. -/
def is_duplicate_packet (windowMs : Int) (st : Option (σ × Int)) (nowMs : Int)
    (sig : σ) [DecidableEq σ] : Bool × Option (σ × Int) :=
  if windowMs ≤ 0 then (false, st)
  else
    let dup : Bool :=
      match st with
      | some (prevSig, prevMs) => decide (prevSig = sig) && decide (nowMs - prevMs ≤ windowMs)
      | none => false
    (dup, some (sig, nowMs))

/-- `_is_significant_change(previous_merged, current_merged)`: steps
differ, the fall flag toggled, or (both tilts numeric) tilt moved by at
least two degrees; with a non-numeric tilt on either side, any
difference in the tilt fields counts. -/
def is_significant_change (previousMerged : Option Merged) (currentMerged : Merged) : Bool :=
  match previousMerged with
  | none => true
  | some prev =>
    if prev.metrics.steps ≠ currentMerged.metrics.steps then true
    else if prev.metrics.fallSuspected ≠ currentMerged.metrics.fallSuspected then true
    else
      match prev.metrics.tiltDeg, currentMerged.metrics.tiltDeg with
      | some pt, some ct => decide (|ct - pt| ≥ 2)
      | pt, ct => decide (pt ≠ ct)

/-- The per-resident ingest state: the module-level dicts of ingest.py
projected onto one resident (`.get(resident_id, default)` semantics).
`lastDurableMerged` is a specification ghost recording the merged state
at the most recent durable `MetricSample` write; `rollupApplies` and
`persistWrites` are ghost counters of `persist_analytics_tick` calls and
durable snapshot writes. -/
structure IngestState where
  walkerState : Option WalkerReading := none
  visionState : Option VisionReading := none
  mergedState : Option Merged := none
  lastPersist : Int := 0
  lastAnalyticsPersist : Int := 0
  sampleCounter : Int := 0
  lastWalkerSig : Option (WalkerSigBody × Int) := none
  lastVisionSig : Option (VisionSigBody × Int) := none
  lastDurableMerged : Option Merged := none
  rollupApplies : Nat := 0
  persistWrites : Nat := 0
deriving DecidableEq, Repr

def initialIngestState : IngestState := {}

/-- The critical flag of `_update_and_push`: fall suspected, or a
numeric tilt of at least 50 degrees. -/
def criticalOf (m : MergedMetrics) : Bool :=
  m.fallSuspected ||
    (match m.tiltDeg with
     | some t => decide (t ≥ 50)
     | none => false)

/-- `_update_and_push(resident_id, db)` restricted to its state effects:
recompute and store the merged state, fire the analytics tick when
critical or the analytics interval elapsed, then decide the durable
snapshot write (interval throttle, then significant-change gate for
non-critical ticks).  Returns the new state and whether a durable
snapshot was written this tick. -/
def update_and_push (cfg : IngestConfig) (st : IngestState) (now : Int) :
    IngestState × Bool :=
  let previousMerged := st.mergedState
  let merged := compute_merged now st.walkerState st.visionState
  let st1 : IngestState := { st with mergedState := some merged }
  let critical := criticalOf merged.metrics
  let st2 : IngestState :=
    if critical || decide (now - st1.lastAnalyticsPersist ≥ analyticsIntervalOf cfg) then
      { st1 with lastAnalyticsPersist := now, rollupApplies := st1.rollupApplies + 1 }
    else st1
  let effectiveInterval := if critical then riskIntervalOf cfg else persistIntervalOf cfg
  if now - st2.lastPersist < effectiveInterval then (st2, false)
  else if !critical && !is_significant_change previousMerged merged then (st2, false)
  else
    ({ st2 with
        lastPersist := now
        sampleCounter := st2.sampleCounter + 1
        lastDurableMerged := some merged
        persistWrites := st2.persistWrites + 1 }, true)

/-- Response of the packet endpoints. -/
structure IngestResponse where
  ok : Bool
  deduped : Bool
deriving DecidableEq, Repr

/-- `post_walker`: normalize the timestamp, dedupe, then store the
reading and run `_update_and_push`.  `now` is the wall clock in seconds,
`nowMs` in milliseconds. -/
def post_walker (cfg : IngestConfig) (st : IngestState) (now nowMs : Int)
    (p : WalkerPacket) : IngestState × IngestResponse :=
  let ts := normalize_packet_ts now p.ts
  let (dup, newSig) :=
    is_duplicate_packet (dedupeWindowOf cfg) st.lastWalkerSig nowMs (walkerSigBody p)
  if dup then ({ st with lastWalkerSig := newSig }, { ok := true, deduped := true })
  else
    let stStored : IngestState :=
      { st with lastWalkerSig := newSig, walkerState := some (walkerReadingOf p ts) }
    ((update_and_push cfg stStored now).1, { ok := true, deduped := false })

/-- `post_vision`: the vision-stream twin of `post_walker`. -/
def post_vision (cfg : IngestConfig) (st : IngestState) (now nowMs : Int)
    (p : VisionPacket) : IngestState × IngestResponse :=
  let ts := normalize_packet_ts now p.ts
  let (dup, newSig) :=
    is_duplicate_packet (dedupeWindowOf cfg) st.lastVisionSig nowMs (visionSigBody p)
  if dup then ({ st with lastVisionSig := newSig }, { ok := true, deduped := true })
  else
    let stStored : IngestState :=
      { st with lastVisionSig := newSig, visionState := some (visionReadingOf p ts) }
    ((update_and_push cfg stStored now).1, { ok := true, deduped := false })

/-- One accepted fused tick driven directly at the `_update_and_push`
level: the handler has stored the given stream readings (walker and
vision state after the packet) and calls `_update_and_push` at `now`. -/
structure TickInput where
  now : Int
  w : Option WalkerReading
  v : Option VisionReading
deriving DecidableEq, Repr

def ingestTick (cfg : IngestConfig) (st : IngestState) (i : TickInput) :
    IngestState × Bool :=
  update_and_push cfg { st with walkerState := i.w, visionState := i.v } i.now

def runTicks (cfg : IngestConfig) (st : IngestState) (ticks : List TickInput) :
    IngestState :=
  ticks.foldl (fun s i => (ingestTick cfg s i).1) st

/-! ## Event detector, durable path: services/analytics_store.py -/

/-- `(subjectId, eventType)` cooldown key. -/
abbrev EventKey := String × String

/-- `_EVENT_COOLDOWN_SECONDS.get(event_type, 60)`. -/
def cooldownOf (eventType : String) : Int :=
  if eventType = "fall" then 45
  else if eventType = "near-fall" then 45
  else if eventType = "heavy-lean" then 60
  else if eventType = "inactivity" then 300
  else 60

/-- Pointwise update of a total-function map. -/
def updMap {κ α : Type} [DecidableEq κ] (m : κ → α) (k : κ) (v : α) : κ → α :=
  fun k2 => if k2 = k then v else m k2

/-- Proactive-path metrics snapshot fields that enter the rounded event
signature (`_event_signature`): `none` models a non-numeric value (the
`na` branch of the formatter). -/
structure SnapshotMetrics where
  reliance : Option ℚ := none
  balance : Option ℚ := none
  fallSuspected : Bool := false
deriving DecidableEq, Repr

/-- Round a rational to `d` decimal places (models the `.1f` / `.2f`
fixed-point formatting of `_event_signature`; the tie-breaking of binary
float formatting is abstracted to round-half-up). -/
def roundDecimals (d : ℚ) (q : ℚ) : ℚ :=
  (round (q * d) : Int) / d

/-- The rounded numeric event signature of `_event_signature`:
event type, reliance to one decimal, balance to two decimals, and the
fall flag.  The formatted string is modelled by its components. -/
structure EventSignature where
  eventType : String
  relianceR : Option ℚ
  balanceR : Option ℚ
  fallFlag : Bool
deriving DecidableEq, Repr

def event_signature (eventType : String) (m : SnapshotMetrics) : EventSignature :=
  { eventType := eventType
    relianceR := m.reliance.map (roundDecimals 10)
    balanceR := m.balance.map (roundDecimals 100)
    fallFlag := m.fallSuspected }

/-- A candidate event offered to the durable detector
(`_record_event_if_due`).  `sig` is the rounded signature of the metric
snapshot: a specification ghost — the durable path receives the payload
but stores no signature. -/
structure DurableCand where
  key : EventKey
  ts : Int
  sig : EventSignature
deriving DecidableEq, Repr

/-- `_record_event_if_due` on the `_last_event_ts` map: reject when the
elapsed time since the last emitted event of this type is below the
cooldown for the type; otherwise record the event and update the map.
The candidate payload/signature plays no part in the decision. -/
def record_event_if_due (m : EventKey → Int) (c : DurableCand) :
    (EventKey → Int) × Bool :=
  if c.ts - m c.key < cooldownOf c.key.2 then (m, false)
  else (updMap m c.key c.ts, true)

/-- Run the durable detector over a list of candidates, returning the
emitted (accepted) ones in order. -/
def durableRun (m : EventKey → Int) : List DurableCand → List DurableCand
  | [] => []
  | c :: rest =>
    let (m2, accepted) := record_event_if_due m c
    if accepted then c :: durableRun m2 rest else durableRun m2 rest

/-- Ghost view of "the last emitted signature for that type" on the
durable path: each processed candidate is paired with the signature of
the most recent accepted candidate for its key at that moment, and with
whether it was itself accepted. -/
def durableRunSig (m : EventKey → Int) (s : EventKey → Option EventSignature) :
    List DurableCand → List (DurableCand × Option EventSignature × Bool)
  | [] => []
  | c :: rest =>
    let (m2, accepted) := record_event_if_due m c
    if accepted then
      (c, s c.key, true) :: durableRunSig m2 (updMap s c.key (some c.sig)) rest
    else (c, s c.key, false) :: durableRunSig m2 s rest

/-- Whether the durable detector accepts candidate `c` in state `m`. -/
def durableAccepts (m : EventKey → Int) (c : DurableCand) : Bool :=
  (record_event_if_due m c).2

/-! ## Event detector, proactive path: services/proactive_monitor.py -/

/-- A proactive candidate event (`ProactiveEvent`). -/
structure PEvent where
  residentId : String
  eventType : String
  severity : String
  snapshot : SnapshotMetrics
  ts : Int
deriving DecidableEq, Repr

def PEvent.key (e : PEvent) : EventKey := (e.residentId, e.eventType)

def PEvent.sig (e : PEvent) : EventSignature :=
  event_signature e.eventType e.snapshot

/-- `max(1, int(settings.proactive_event_cooldown_seconds or 20))`. -/
def proactiveCooldown (setting : Int) : Int :=
  max 1 (pyOrIntVal setting 20)

/-- Per-key suppression state of the proactive monitor:
`_last_event_at` (default 0) and `_last_event_signature` (absent =
`None`, which never equals a computed signature). -/
structure ProactiveState where
  lastEventAt : EventKey → Int
  lastEventSignature : EventKey → Option EventSignature

def initialProactiveState : ProactiveState :=
  { lastEventAt := fun _ => 0, lastEventSignature := fun _ => none }

/-- `ProactiveMonitorService._should_enqueue`: reject below cooldown;
reject when the rounded signature equals the last emitted signature for
the key; on acceptance update both the timestamp and the signature. -/
def should_enqueue (setting : Int) (st : ProactiveState) (e : PEvent) :
    Bool × ProactiveState :=
  let cooldown := proactiveCooldown setting
  if e.ts - st.lastEventAt e.key < cooldown then (false, st)
  else if st.lastEventSignature e.key = some e.sig then (false, st)
  else
    (true,
      { lastEventAt := updMap st.lastEventAt e.key e.ts
        lastEventSignature := updMap st.lastEventSignature e.key (some e.sig) })

/-- Run the proactive suppression over a list of candidates, returning
the enqueued (accepted) ones in order. -/
def proactiveRun (setting : Int) (st : ProactiveState) : List PEvent → List PEvent
  | [] => []
  | e :: rest =>
    let (accepted, st2) := should_enqueue setting st e
    if accepted then e :: proactiveRun setting st2 rest
    else proactiveRun setting st2 rest

/-! ## Proactive alert dispatcher, speaking: `_speak` -/

/-- `max(1, int(settings.proactive_max_speaks_per_minute or 4))`. -/
def maxPerMinute (setting : Int) : Int :=
  max 1 (pyOrIntVal setting 4)

/-- Inputs of one `_speak` call for a resident: the wall-clock second,
and the outcomes of the two outside collaborator calls (speech
synthesis and the avatar channel send). -/
structure SpeakCall where
  now : Int
  ttsOk : Bool
  sendOk : Bool
deriving DecidableEq, Repr

/-- Result of `_speak`: spoken flag and error reason. -/
structure SpeakResult where
  spoken : Bool
  error : Option String
deriving DecidableEq, Repr

/-- `[ts for ts in history if (now - ts) < 60]`: the part of the stored
rate window still inside the rolling 60-second window at `now`. -/
def recentWindow (now : Int) (history : List Int) : List Int :=
  history.filter (fun ts => now - ts < 60)

/-- `ProactiveMonitorService._speak` restricted to the rate-window state
for one resident (`_last_speak_by_resident[resident_id]`, default `[]`):
filter the window to the last 60 seconds; drop as `rate_limited` when it
already holds the maximum (storing the filtered window); return early on
synthesis or channel-send failure (leaving the stored window as it was);
on success store the filtered window with the new timestamp appended. -/
def speakStep (setting : Int) (history : List Int) (c : SpeakCall) :
    SpeakResult × List Int :=
  let maxPM := maxPerMinute setting
  let recent := recentWindow c.now history
  if (recent.length : Int) ≥ maxPM then
    ({ spoken := false, error := some "rate_limited" }, recent)
  else if !c.ttsOk then
    ({ spoken := false, error := some "tts failed" }, history)
  else if !c.sendOk then
    ({ spoken := false, error := some "avatar speak failed" }, history)
  else
    ({ spoken := true, error := none }, recent ++ [c.now])

/-- The stored rate window after a sequence of `_speak` calls. -/
def speakRun (setting : Int) (history : List Int) (calls : List SpeakCall) :
    List Int :=
  calls.foldl (fun h c => (speakStep setting h c).2) history

/-! ## Rollup aggregator: `_upsert_rollups` -/

/-- One hourly or daily rollup row for a `(resident, bucket)` key.
Nullable DB columns read through `int(x or 0)` / `float(x or 0.0)` are
modelled as the values themselves with freshly created rows zeroed. -/
structure RollupRow where
  sample_count : Int := 0
  steps_max : Int := 0
  cadence_sum : ℚ := 0
  cadence_count : Int := 0
  step_var_sum : ℚ := 0
  step_var_count : Int := 0
  fall_count : Int := 0
  tilt_spike_count : Int := 0
  heavy_lean_count : Int := 0
  inactivity_count : Int := 0
  active_seconds : Int := 0
deriving DecidableEq, Repr

def zeroRollupRow : RollupRow := {}

/-- The per-tick arguments of `_upsert_rollups`. -/
structure RollupArgs where
  steps : Option Int := none
  cadence : Option ℚ := none
  step_var : Option ℚ := none
  fall_suspected : Bool := false
  tilt_deg : Option ℚ := none
  heavy_lean_event : Bool := false
  inactivity_event : Bool := false
  active_seconds : Int := 0
deriving DecidableEq, Repr

/-- The body of the `for row in (hourly, daily)` loop of
`_upsert_rollups`, applied to one row.  Each statement of the loop body
touches a disjoint group of fields, so the sequential assignments are
rendered field by field. -/
def upsertRow (a : RollupArgs) (row : RollupRow) : RollupRow :=
  { sample_count := row.sample_count + 1
    active_seconds := row.active_seconds + max 0 a.active_seconds
    steps_max :=
      match a.steps with
      | some s => max row.steps_max s
      | none => row.steps_max
    cadence_sum :=
      match a.cadence with
      | some c => row.cadence_sum + c
      | none => row.cadence_sum
    cadence_count :=
      match a.cadence with
      | some _ => row.cadence_count + 1
      | none => row.cadence_count
    step_var_sum :=
      match a.step_var with
      | some sv => row.step_var_sum + sv
      | none => row.step_var_sum
    step_var_count :=
      match a.step_var with
      | some _ => row.step_var_count + 1
      | none => row.step_var_count
    fall_count := if a.fall_suspected then row.fall_count + 1 else row.fall_count
    tilt_spike_count :=
      match a.tilt_deg with
      | some t => if t ≥ 60 then row.tilt_spike_count + 1 else row.tilt_spike_count
      | none => row.tilt_spike_count
    heavy_lean_count :=
      if a.heavy_lean_event then row.heavy_lean_count + 1 else row.heavy_lean_count
    inactivity_count :=
      if a.inactivity_event then row.inactivity_count + 1 else row.inactivity_count }

/-- `_bucket_start_hour(ts) = ts - (ts % 3600)` (Python `%` on a
positive modulus matches `Int.emod`). -/
def bucket_start_hour (ts : Int) : Int := ts - ts % 3600

/-- `_date_from_ts`: the UTC calendar day, as days since the epoch
(floor division, matching Python datetime on the UTC timeline). -/
def date_from_ts (ts : Int) : Int := Int.fdiv ts 86400

/-- The hourly and daily rollup tables for one resident, keyed by
bucket start (hour bucket timestamp, day index).  `none` means the row
does not exist yet. -/
structure RollupTables where
  hourly : Int → Option RollupRow
  daily : Int → Option RollupRow

def emptyRollupTables : RollupTables :=
  { hourly := fun _ => none, daily := fun _ => none }

/-- `_upsert_rollups`: resolve (and lazily create) the hour and day
rows for the tick timestamp, then apply the increment loop to both. -/
def upsert_rollups (tbl : RollupTables) (ts : Int) (a : RollupArgs) : RollupTables :=
  let hb := bucket_start_hour ts
  let db := date_from_ts ts
  let hourlyRow := (tbl.hourly hb).getD zeroRollupRow
  let dailyRow := (tbl.daily db).getD zeroRollupRow
  { hourly := updMap tbl.hourly hb (some (upsertRow a hourlyRow))
    daily := updMap tbl.daily db (some (upsertRow a dailyRow)) }

/-- A sequence of applies: each carries its tick timestamp and args. -/
def runRollups (tbl : RollupTables) (applies : List (Int × RollupArgs)) : RollupTables :=
  applies.foldl (fun t p => upsert_rollups t p.1 p.2) tbl

/-- Componentwise order on rollup rows: every field of the claim list
(sampleCount, stepsMax, cadence sum and count, step-variance sum and
count, fallCount, tiltSpikeCount, heavyLeanCount, inactivityCount,
activeSeconds) is no smaller in the second row. -/
def rollupLe (r1 r2 : RollupRow) : Prop :=
  r1.sample_count ≤ r2.sample_count ∧
  r1.steps_max ≤ r2.steps_max ∧
  r1.cadence_sum ≤ r2.cadence_sum ∧
  r1.cadence_count ≤ r2.cadence_count ∧
  r1.step_var_sum ≤ r2.step_var_sum ∧
  r1.step_var_count ≤ r2.step_var_count ∧
  r1.fall_count ≤ r2.fall_count ∧
  r1.tilt_spike_count ≤ r2.tilt_spike_count ∧
  r1.heavy_lean_count ≤ r2.heavy_lean_count ∧
  r1.inactivity_count ≤ r2.inactivity_count ∧
  r1.active_seconds ≤ r2.active_seconds

/-- Like `rollupLe` but without the two running-sum fields (the fields
whose increments are always nonnegative in the code itself). -/
def rollupLeCore (r1 r2 : RollupRow) : Prop :=
  r1.sample_count ≤ r2.sample_count ∧
  r1.steps_max ≤ r2.steps_max ∧
  r1.cadence_count ≤ r2.cadence_count ∧
  r1.step_var_count ≤ r2.step_var_count ∧
  r1.fall_count ≤ r2.fall_count ∧
  r1.tilt_spike_count ≤ r2.tilt_spike_count ∧
  r1.heavy_lean_count ≤ r2.heavy_lean_count ∧
  r1.inactivity_count ≤ r2.inactivity_count ∧
  r1.active_seconds ≤ r2.active_seconds

/-- Order on optional rows: an existing row must still exist and have
grown; a missing row may become anything. -/
def optRowLe (le : RollupRow → RollupRow → Prop) (o1 o2 : Option RollupRow) : Prop :=
  ∀ r1, o1 = some r1 → ∃ r2, o2 = some r2 ∧ le r1 r2

/-! ## Broadcast hub: services/ws_manager.py -/

/-- Add to a set-like list (Python `set.add`). -/
def insertConn (l : List Nat) (ws : Nat) : List Nat :=
  if ws ∈ l then l else ws :: l

/-- `ConnectionManager` scopes: connections are modelled by numeric
ids.  `connection_to_resident` (used only by `disconnect`) is omitted. -/
structure ConnectionManager where
  all_connections : List Nat
  resident_subscribers : String → List Nat

def emptyConnectionManager : ConnectionManager :=
  { all_connections := [], resident_subscribers := fun _ => [] }

/-- `ConnectionManager.connect`: every connection joins the all-updates
scope; a connection carrying a resident id additionally joins that
resident scope. -/
def connect (m : ConnectionManager) (ws : Nat) (residentId : Option String) :
    ConnectionManager :=
  let m2 : ConnectionManager := { m with all_connections := insertConn m.all_connections ws }
  match residentId with
  | some rid =>
    { m2 with
        resident_subscribers :=
          updMap m2.resident_subscribers rid (insertConn (m2.resident_subscribers rid) ws) }
  | none => m2

/-- Recipients of `broadcast_all(event)`. -/
def broadcast_all_recipients (m : ConnectionManager) : List Nat :=
  m.all_connections

/-- Recipients of `broadcast_resident(resident_id, event)`. -/
def broadcast_resident_recipients (m : ConnectionManager) (residentId : String) : List Nat :=
  m.resident_subscribers residentId

/-- Deliveries of the `merged_update` event of one accepted tick for
`residentId`: `_update_and_push` publishes to the all scope and then to
the resident scope (ingest.py lines 249-250). -/
def tick_recipients (m : ConnectionManager) (residentId : String) : List Nat :=
  broadcast_all_recipients m ++ broadcast_resident_recipients m residentId

/-! ## Claim statements under test

Each `C*_statement` is the literal formalization of the corresponding
claim of the specification, stated over the embedded code.  Claims that
fail on the code are refuted through these statements and then proved in
an amended form. -/

/-- Claim C1 as stated: the fused `steps` equals the vision step count
whenever the latest vision reading contains one (including a step count
of 0), and equals the device steps otherwise. -/
def C1_statement : Prop :=
  ∀ (now : Int) (w : WalkerReading) (v : VisionReading),
    (v.stepCount.isSome = true →
      (compute_merged now (some w) (some v)).metrics.steps = v.stepCount) ∧
    (v.stepCount = none →
      (compute_merged now (some w) (some v)).metrics.steps = w.steps)

/-- Claim C5 as stated: for integer force fields (of any sign), the
fused reliance is nonnegative and the balance lies in `[-1, 1]`. -/
def C5_statement : Prop :=
  ∀ (now : Int) (w : WalkerReading) (v : Option VisionReading),
    0 ≤ (compute_merged now (some w) v).metrics.reliance ∧
    -1 ≤ (compute_merged now (some w) v).metrics.balance ∧
    (compute_merged now (some w) v).metrics.balance ≤ 1

/-- Claim C2 as stated: on the durable IngestEvent path, a candidate
whose rounded-snapshot signature is identical to the last emitted
signature for its `(subjectId, eventType)` is rejected, even when the
cooldown has elapsed. -/
def C2_statement : Prop :=
  ∀ cands : List DurableCand,
    ∀ entry ∈ durableRunSig (fun _ => 0) (fun _ => none) cands,
      entry.2.1 = some entry.1.sig → entry.2.2 = false

/-- Significant-change test of the specification for claim C3,
evaluated against the merged metrics at the last durable write (spec
section 4.6 wording): step count changed, fall flag toggled, or tilt
changed by at least two degrees. -/
def spec_significant_since_durable (d m : MergedMetrics) : Bool :=
  if d.steps ≠ m.steps then true
  else if d.fallSuspected ≠ m.fallSuspected then true
  else
    match d.tiltDeg, m.tiltDeg with
    | some pt, some ct => decide (|ct - pt| ≥ 2)
    | pt, ct => decide (pt ≠ ct)

/-- Claim C3 as stated: a non-critical tick whose persistence interval
has elapsed is durably written only when the merged metrics changed
significantly relative to the state at the last durable write. -/
def C3_statement : Prop :=
  ∀ (cfg : IngestConfig) (ticks : List TickInput) (i : TickInput),
    criticalOf (compute_merged i.now i.w i.v).metrics = false →
    persistIntervalOf cfg ≤ i.now - (runTicks cfg initialIngestState ticks).lastPersist →
    ((runTicks cfg initialIngestState ticks).lastDurableMerged.all
        (fun d => !spec_significant_since_durable d.metrics
          (compute_merged i.now i.w i.v).metrics)) = true →
    (ingestTick cfg (runTicks cfg initialIngestState ticks) i).2 = false

/-- Claim C4 as stated: once speech synthesis succeeded (the call was
not rate limited and TTS returned ok), the timestamp of the alert is
recorded in the rate window regardless of the channel-send outcome. -/
def C4_statement : Prop :=
  ∀ (setting : Int) (history : List Int) (c : SpeakCall),
    c.ttsOk = true →
    ((recentWindow c.now history).length : Int) < maxPerMinute setting →
    c.now ∈ (speakStep setting history c).2

/-- Claim C9 as stated: across any sequence of applies, every rollup
row only grows in every field of the claim list (monotonically
non-decreasing counters, running max for steps). -/
def C9_statement : Prop :=
  ∀ (tbl : RollupTables) (applies : List (Int × RollupArgs)) (b : Int),
    optRowLe rollupLe (tbl.hourly b) ((runRollups tbl applies).hourly b) ∧
    optRowLe rollupLe (tbl.daily b) ((runRollups tbl applies).daily b)

/-- Nonnegativity of the optional averaged samples fed to a rollup
apply (cadence, step variance). -/
def nonnegArgs (a : RollupArgs) : Prop :=
  (∀ c, a.cadence = some c → 0 ≤ c) ∧ (∀ sv, a.step_var = some sv → 0 ≤ sv)

/-- Number of recorded rate-window timestamps inside the rolling
60-second window `(t - 60, t]`. -/
def windowCount (t : Int) (h : List Int) : Nat :=
  (h.filter (fun ts => t - 60 < ts && ts ≤ t)).length

/-! ## C1: fused steps prefer the vision step count -/

/-- C1, counterexample: the claim fails on a vision reading whose step
count is 0 — Python truthiness (`stepCount or step_count`) drops a zero
step count, so the fused steps fall back to the device steps (5 here)
instead of the vision value 0. -/
theorem C1_counterexample : ¬ C1_statement := by
  intro h
  have h1 := (h 0 { ts := 0, fsrLeft := 0, fsrRight := 0, steps := some 5 }
      { ts := 0, stepCount := some 0 }).1 rfl
  exact absurd h1 (by decide)

/-- C1, amended: with the snake-case alias absent (as on the router
path), the fused `steps` equals the vision step count whenever the
latest vision reading contains a nonzero step count; when the vision
step count is absent or zero it equals the device steps. -/
theorem C1_steps_amended (now : Int) (w : WalkerReading) (v : VisionReading)
    (hv : v.step_count = none) :
    (compute_merged now (some w) (some v)).metrics.steps =
      (match v.stepCount with
       | some n => if n = 0 then w.steps else some n
       | none => w.steps) := by
  cases hsc : v.stepCount with
  | none => simp [compute_merged, pyOrInt, hv, hsc]
  | some n =>
    by_cases hn : n = 0
    · simp [compute_merged, pyOrInt, hv, hsc, hn]
    · simp [compute_merged, pyOrInt, hv, hsc, hn]

/-- C1, witness: a nonzero vision step count (3) wins over the device
steps (7). -/
theorem C1_steps_amended_witness :
    ({ ts := 0, stepCount := some 3 } : VisionReading).step_count = none ∧
    (compute_merged 0 (some { ts := 0, fsrLeft := 1, fsrRight := 2, steps := some 7 })
        (some { ts := 0, stepCount := some 3 })).metrics.steps = some 3 := by
  refine ⟨rfl, ?_⟩
  have h := C1_steps_amended 0 { ts := 0, fsrLeft := 1, fsrRight := 2, steps := some 7 }
    { ts := 0, stepCount := some 3 } rfl
  simpa using h

/-! ## C5: reliance and balance bounds -/

/-- C5, counterexample: the packet contract accepts negative integer
forces; with `fsrLeft = -1, fsrRight = 0` the reliance
`-1 + 1e-6` is negative, refuting the claim as stated. -/
theorem C5_counterexample : ¬ C5_statement := by
  intro h
  have h1 := (h 0 { ts := 0, fsrLeft := -1, fsrRight := 0 } none).1
  norm_num [compute_merged, mergeEps] at h1

/-- C5, amended: for nonnegative force readings the fused metrics
satisfy `reliance = leftForce + rightForce + ε > 0` and
`balance = (leftForce − rightForce) / reliance ∈ [−1, 1]`. -/
theorem C5_force_bounds (now : Int) (w : WalkerReading) (v : Option VisionReading)
    (hl : 0 ≤ w.fsrLeft) (hr : 0 ≤ w.fsrRight) :
    (compute_merged now (some w) v).metrics.reliance
        = (w.fsrLeft : ℚ) + (w.fsrRight : ℚ) + mergeEps ∧
    0 < (compute_merged now (some w) v).metrics.reliance ∧
    -1 ≤ (compute_merged now (some w) v).metrics.balance ∧
    (compute_merged now (some w) v).metrics.balance ≤ 1 := by
  have hL : (0 : ℚ) ≤ (w.fsrLeft : ℚ) := by exact_mod_cast hl
  have hR : (0 : ℚ) ≤ (w.fsrRight : ℚ) := by exact_mod_cast hr
  have hEps : (0 : ℚ) < mergeEps := by norm_num [mergeEps]
  have hrel : (compute_merged now (some w) v).metrics.reliance
      = (w.fsrLeft : ℚ) + (w.fsrRight : ℚ) + mergeEps := by
    simp [compute_merged]
  have hbal : (compute_merged now (some w) v).metrics.balance
      = ((w.fsrLeft : ℚ) - (w.fsrRight : ℚ))
          / ((w.fsrLeft : ℚ) + (w.fsrRight : ℚ) + mergeEps) := by
    simp [compute_merged]
  have ht : (0 : ℚ) < (w.fsrLeft : ℚ) + (w.fsrRight : ℚ) + mergeEps := by linarith
  refine ⟨hrel, by rw [hrel]; exact ht, ?_, ?_⟩
  · rw [hbal, le_div_iff₀ ht]
    linarith
  · rw [hbal, div_le_one ht]
    linarith

/-- C5, witness: forces 2 and 1 give a positive reliance and a balance
inside the unit interval. -/
theorem C5_force_bounds_witness :
    0 < (compute_merged 0 (some { ts := 0, fsrLeft := 2, fsrRight := 1 }) none).metrics.reliance ∧
    -1 ≤ (compute_merged 0 (some { ts := 0, fsrLeft := 2, fsrRight := 1 }) none).metrics.balance ∧
    (compute_merged 0 (some { ts := 0, fsrLeft := 2, fsrRight := 1 }) none).metrics.balance ≤ 1 := by
  have h := C5_force_bounds 0 { ts := 0, fsrLeft := 2, fsrRight := 1 } none
    (by decide) (by decide)
  exact ⟨h.2.1, h.2.2.1, h.2.2.2⟩

/-! ## C4: rate-window recording and channel-send failures -/

/-- C4, counterexample: with synthesis succeeding but the avatar
channel send failing, `_speak` returns before appending the timestamp,
so nothing is recorded in the rate window — refuting the claim that the
timestamp is recorded regardless of channel-send success. -/
theorem C4_counterexample : ¬ C4_statement := by
  intro h
  have h1 := h 0 [] { now := 100, ttsOk := true, sendOk := false } rfl (by decide)
  exact absurd h1 (by decide)

/-- C4, amended: on a call that is not rate limited, the timestamp is
recorded exactly when both speech synthesis and the channel send
succeed; on a synthesis or send failure the stored rate window is left
unchanged and the alert is not spoken. -/
theorem C4_speak_recording (setting : Int) (history : List Int) (c : SpeakCall)
    (hroom : ((recentWindow c.now history).length : Int) < maxPerMinute setting) :
    (c.ttsOk = true → c.sendOk = true →
      (speakStep setting history c).1.spoken = true ∧
      (speakStep setting history c).2 = recentWindow c.now history ++ [c.now]) ∧
    (c.ttsOk = false ∨ c.sendOk = false →
      (speakStep setting history c).1.spoken = false ∧
      (speakStep setting history c).2 = history) := by
  have hnot : ¬ ((recentWindow c.now history).length : Int) ≥ maxPerMinute setting :=
    not_le.mpr hroom
  constructor
  · intro ht hs
    simp [speakStep, hnot, ht, hs]
  · intro hfail
    rcases hfail with hf | hf
    · simp [speakStep, hnot, hf]
    · by_cases ht : c.ttsOk <;> simp [speakStep, hnot, ht, hf]

/-- C4, witness: a successful synthesis with a failing channel send
leaves the rate window empty. -/
theorem C4_speak_recording_witness :
    ((recentWindow 5 ([] : List Int)).length : Int) < maxPerMinute 0 ∧
    (speakStep 0 [] { now := 5, ttsOk := true, sendOk := false }).1.spoken = false ∧
    (speakStep 0 [] { now := 5, ttsOk := true, sendOk := false }).2 = [] := by
  have h := C4_speak_recording 0 [] { now := 5, ttsOk := true, sendOk := false } (by decide)
  exact ⟨by decide, (h.2 (Or.inr rfl)).1, (h.2 (Or.inr rfl)).2⟩

/-! ## C8: the rolling rate-window bound -/

theorem windowCount_filter_le (t : Int) (p : Int → Bool) (h : List Int) :
    windowCount t (h.filter p) ≤ windowCount t h :=
  (((List.filter_sublist h).filter _)).length_le

theorem speakStep_windowCount_le (setting : Int) (history : List Int) (c : SpeakCall)
    (hInv : ∀ t, (windowCount t history : Int) ≤ maxPerMinute setting) :
    ∀ t, (windowCount t (speakStep setting history c).2 : Int) ≤ maxPerMinute setting := by
  intro t
  have hsub : (windowCount t (recentWindow c.now history) : Int) ≤ maxPerMinute setting := by
    have := windowCount_filter_le t (fun ts => c.now - ts < 60) history
    have h2 := hInv t
    unfold recentWindow
    omega
  by_cases hg : ((recentWindow c.now history).length : Int) ≥ maxPerMinute setting
  · simp only [speakStep, hg, if_true]
    exact hsub
  · by_cases ht : c.ttsOk
    · by_cases hs : c.sendOk
      · have hexp : (speakStep setting history c).2 = recentWindow c.now history ++ [c.now] := by
          simp [speakStep, hg, ht, hs]
        rw [hexp]
        unfold windowCount
        rw [List.filter_append, List.length_append]
        have hone : ([c.now].filter (fun ts => t - 60 < ts && ts ≤ t)).length ≤ 1 := by
          simp [List.filter]
          split <;> simp
        have hlen : ((recentWindow c.now history).filter
            (fun ts => t - 60 < ts && ts ≤ t)).length ≤ (recentWindow c.now history).length :=
          List.length_filter_le _ _
        omega
      · have hexp : (speakStep setting history c).2 = history := by
          simp [speakStep, hg, ht, hs]
        rw [hexp]; exact hInv t
    · have hexp : (speakStep setting history c).2 = history := by
        simp [speakStep, hg, ht]
      rw [hexp]; exact hInv t

theorem speakRun_windowCount_le (setting : Int) (calls : List SpeakCall) :
    ∀ history, (∀ t, (windowCount t history : Int) ≤ maxPerMinute setting) →
      ∀ t, (windowCount t (speakRun setting history calls) : Int) ≤ maxPerMinute setting := by
  induction calls with
  | nil => intro history hInv t; exact hInv t
  | cons c rest ih =>
    intro history hInv t
    have hstep := speakStep_windowCount_le setting history c hInv
    exact ih (speakStep setting history c).2 hstep t

/-- C8: starting from an empty rate window, after any sequence of
`_speak` calls every rolling 60-second window holds at most
`maxSpeaksPerMinute` recorded timestamps; and a call arriving when the
window already holds the maximum is dropped with reason `rate_limited`
(and is not spoken), the stored window being pruned to the last 60
seconds. -/
theorem C8_rate_window_bound :
    (∀ (setting : Int) (calls : List SpeakCall) (t : Int),
      (windowCount t (speakRun setting [] calls) : Int) ≤ maxPerMinute setting) ∧
    (∀ (setting : Int) (history : List Int) (c : SpeakCall),
      maxPerMinute setting ≤ ((recentWindow c.now history).length : Int) →
      speakStep setting history c =
        ({ spoken := false, error := some "rate_limited" }, recentWindow c.now history)) := by
  constructor
  · intro setting calls t
    refine speakRun_windowCount_le setting calls [] ?_ t
    intro t2
    have h1 : (1 : Int) ≤ maxPerMinute setting := le_max_left 1 _
    simp [windowCount]
    omega
  · intro setting history c hge
    simp [speakStep, hge]

/-- C8, witness: with four timestamps already inside the window, a
fifth alert in the same minute is dropped as rate limited. -/
theorem C8_rate_window_bound_witness :
    maxPerMinute 0 ≤ ((recentWindow 0 [0, 0, 0, 0]).length : Int) ∧
    speakStep 0 [0, 0, 0, 0] { now := 0, ttsOk := true, sendOk := true } =
      ({ spoken := false, error := some "rate_limited" }, [0, 0, 0, 0]) := by
  have h := C8_rate_window_bound.2 0 [0, 0, 0, 0]
    { now := 0, ttsOk := true, sendOk := true } (by decide)
  refine ⟨by decide, ?_⟩
  simpa [recentWindow] using h

/-! ## C2: signature suppression and the durable path -/

/-- C2, counterexample: the durable `_record_event_if_due` has no
signature state at all — two `fall` candidates with identical rounded
signatures 100 seconds apart are both emitted, refuting the claim that
signature suppression applies on the durable path. -/
theorem C2_counterexample : ¬ C2_statement := by
  intro h
  have h1 := h
      [⟨("r1", "fall"), 100, ⟨"fall", none, none, true⟩⟩,
       ⟨("r1", "fall"), 200, ⟨"fall", none, none, true⟩⟩]
      (⟨("r1", "fall"), 200, ⟨"fall", none, none, true⟩⟩,
        some ⟨"fall", none, none, true⟩, true)
      (by decide) rfl
  exact absurd h1 (by decide)

/-- C2, amended: identical-signature suppression exists only on the
proactive path — `_should_enqueue` rejects a candidate whose rounded
signature equals the last emitted one even when the cooldown has
elapsed — while the durable path accepts any candidate whose cooldown
has elapsed, regardless of signature. -/
theorem C2_signature_paths :
    (∀ (setting : Int) (st : ProactiveState) (e : PEvent),
      st.lastEventSignature e.key = some e.sig → (should_enqueue setting st e).1 = false) ∧
    (∀ (m : EventKey → Int) (c : DurableCand),
      cooldownOf c.key.2 ≤ c.ts - m c.key → durableAccepts m c = true) := by
  constructor
  · intro setting st e hsig
    by_cases hcd : e.ts - st.lastEventAt e.key < proactiveCooldown setting
    · simp [should_enqueue, hcd]
    · simp [should_enqueue, hcd, hsig]
  · intro m c hcd
    have hnot : ¬ (c.ts - m c.key < cooldownOf c.key.2) := by omega
    simp [durableAccepts, record_event_if_due, hnot]

/-- C2, witness: a proactive repeat with the identical signature is
suppressed while the durable path emits after its cooldown. -/
theorem C2_signature_paths_witness :
    (should_enqueue 0
        { lastEventAt := fun _ => 0,
          lastEventSignature := fun _ => some ⟨"fall", none, none, true⟩ }
        { residentId := "r1", eventType := "fall", severity := "high",
          snapshot := { fallSuspected := true }, ts := 100 }).1 = false ∧
    durableAccepts (fun _ => 0) ⟨("r1", "fall"), 100, ⟨"fall", none, none, true⟩⟩ = true := by
  exact ⟨C2_signature_paths.1 0 _ _ rfl, C2_signature_paths.2 _ _ (by decide)⟩

/-! ## C7: cooldown separation of emitted events -/

theorem cooldownOf_pos (t : String) : 0 < cooldownOf t := by
  unfold cooldownOf
  split_ifs <;> norm_num

theorem proactiveCooldown_pos (s : Int) : 0 < proactiveCooldown s :=
  lt_of_lt_of_le one_pos (le_max_left 1 _)

theorem durableRun_mem_ge (cands : List DurableCand) :
    ∀ (m : EventKey → Int), ∀ c ∈ durableRun m cands,
      m c.key + cooldownOf c.key.2 ≤ c.ts := by
  induction cands with
  | nil => intro m c hc; simp [durableRun] at hc
  | cons c0 rest ih =>
    intro m c hc
    by_cases hcd : c0.ts - m c0.key < cooldownOf c0.key.2
    · rw [show durableRun m (c0 :: rest) = durableRun m rest by
        simp [durableRun, record_event_if_due, hcd]] at hc
      exact ih m c hc
    · rw [show durableRun m (c0 :: rest)
          = c0 :: durableRun (updMap m c0.key c0.ts) rest by
        simp [durableRun, record_event_if_due, hcd]] at hc
      rcases List.mem_cons.mp hc with rfl | hc2
      · omega
      · have h2 := ih (updMap m c0.key c0.ts) c hc2
        have hmono : m c.key ≤ updMap m c0.key c0.ts c.key := by
          unfold updMap
          by_cases he : c.key = c0.key
          · rw [if_pos he, he]
            have := cooldownOf_pos c0.key.2
            omega
          · rw [if_neg he]
        omega

theorem durableRun_pairwise (cands : List DurableCand) (m : EventKey → Int) :
    List.Pairwise (fun a b => a.key = b.key → a.ts + cooldownOf a.key.2 ≤ b.ts)
      (durableRun m cands) := by
  induction cands generalizing m with
  | nil => simp [durableRun]
  | cons c0 rest ih =>
    by_cases hcd : c0.ts - m c0.key < cooldownOf c0.key.2
    · rw [show durableRun m (c0 :: rest) = durableRun m rest by
        simp [durableRun, record_event_if_due, hcd]]
      exact ih m
    · rw [show durableRun m (c0 :: rest)
          = c0 :: durableRun (updMap m c0.key c0.ts) rest by
        simp [durableRun, record_event_if_due, hcd]]
      refine List.Pairwise.cons ?_ (ih _)
      intro b hb hkey
      have h2 := durableRun_mem_ge rest (updMap m c0.key c0.ts) b hb
      have hupd : updMap m c0.key c0.ts b.key = c0.ts := by
        unfold updMap
        rw [if_pos hkey.symm]
      rw [hupd, ← hkey] at h2
      omega

theorem proactiveRun_mem_ge (cands : List PEvent) :
    ∀ (setting : Int) (st : ProactiveState), ∀ e ∈ proactiveRun setting st cands,
      st.lastEventAt e.key + proactiveCooldown setting ≤ e.ts := by
  induction cands with
  | nil => intro setting st e he; simp [proactiveRun] at he
  | cons e0 rest ih =>
    intro setting st e he
    by_cases hcd : e0.ts - st.lastEventAt e0.key < proactiveCooldown setting
    · rw [show proactiveRun setting st (e0 :: rest) = proactiveRun setting st rest by
        simp [proactiveRun, should_enqueue, hcd]] at he
      exact ih setting st e he
    · by_cases hsig : st.lastEventSignature e0.key = some e0.sig
      · rw [show proactiveRun setting st (e0 :: rest) = proactiveRun setting st rest by
          simp [proactiveRun, should_enqueue, hcd, hsig]] at he
        exact ih setting st e he
      · rw [show proactiveRun setting st (e0 :: rest)
            = e0 :: proactiveRun setting
                { lastEventAt := updMap st.lastEventAt e0.key e0.ts
                  lastEventSignature := updMap st.lastEventSignature e0.key (some e0.sig) }
                rest by
          simp [proactiveRun, should_enqueue, hcd, hsig]] at he
        rcases List.mem_cons.mp he with rfl | he2
        · omega
        · have h2 := ih setting _ e he2
          have hmono : st.lastEventAt e.key ≤ updMap st.lastEventAt e0.key e0.ts e.key := by
            unfold updMap
            by_cases hk : e.key = e0.key
            · rw [if_pos hk, hk]
              have := proactiveCooldown_pos setting
              omega
            · rw [if_neg hk]
          simp only at h2
          omega

theorem proactiveRun_pairwise (cands : List PEvent) (setting : Int) (st : ProactiveState) :
    List.Pairwise (fun a b => a.key = b.key → a.ts + proactiveCooldown setting ≤ b.ts)
      (proactiveRun setting st cands) := by
  induction cands generalizing st with
  | nil => simp [proactiveRun]
  | cons e0 rest ih =>
    by_cases hcd : e0.ts - st.lastEventAt e0.key < proactiveCooldown setting
    · rw [show proactiveRun setting st (e0 :: rest) = proactiveRun setting st rest by
        simp [proactiveRun, should_enqueue, hcd]]
      exact ih st
    · by_cases hsig : st.lastEventSignature e0.key = some e0.sig
      · rw [show proactiveRun setting st (e0 :: rest) = proactiveRun setting st rest by
          simp [proactiveRun, should_enqueue, hcd, hsig]]
        exact ih st
      · rw [show proactiveRun setting st (e0 :: rest)
            = e0 :: proactiveRun setting
                { lastEventAt := updMap st.lastEventAt e0.key e0.ts
                  lastEventSignature := updMap st.lastEventSignature e0.key (some e0.sig) }
                rest by
          simp [proactiveRun, should_enqueue, hcd, hsig]]
        refine List.Pairwise.cons ?_ (ih _)
        intro b hb hkey
        have h2 := proactiveRun_mem_ge rest setting _ b hb
        simp only at h2
        have hupd : updMap st.lastEventAt e0.key e0.ts b.key = e0.ts := by
          unfold updMap
          rw [if_pos hkey.symm]
        rw [hupd] at h2
        omega

/-- C7: on both detector paths, starting from empty cooldown state, any
two emitted events for the same `(subjectId, eventType)` are at least
the cooldown of that type apart (the later timestamp exceeds the earlier one
by the cooldown), with the durable defaults fall/near-fall 45 s,
heavy-lean 60 s, inactivity 300 s, and the proactive path using the
configured proactive cooldown. -/
theorem C7_cooldown_monotonicity :
    (∀ cands : List DurableCand,
      List.Pairwise (fun a b => a.key = b.key → a.ts + cooldownOf a.key.2 ≤ b.ts)
        (durableRun (fun _ => 0) cands)) ∧
    (∀ (setting : Int) (cands : List PEvent),
      List.Pairwise (fun a b => a.key = b.key → a.ts + proactiveCooldown setting ≤ b.ts)
        (proactiveRun setting initialProactiveState cands)) ∧
    cooldownOf "fall" = 45 ∧ cooldownOf "near-fall" = 45 ∧
    cooldownOf "heavy-lean" = 60 ∧ cooldownOf "inactivity" = 300 := by
  refine ⟨fun cands => durableRun_pairwise cands _,
    fun setting cands => proactiveRun_pairwise cands setting _, rfl, rfl, rfl, rfl⟩

/-- C7, witness: two emitted `fall` events at 100 and 200 are at least
45 seconds apart. -/
theorem C7_cooldown_monotonicity_witness :
    (100 : Int) + cooldownOf "fall" ≤ 200 := by
  have h := C7_cooldown_monotonicity.1
      [⟨("r1", "fall"), 100, ⟨"fall", none, none, true⟩⟩,
       ⟨("r1", "fall"), 200, ⟨"fall", none, none, true⟩⟩]
  rw [show durableRun (fun _ => 0)
        [⟨("r1", "fall"), 100, ⟨"fall", none, none, true⟩⟩,
         ⟨("r1", "fall"), 200, ⟨"fall", none, none, true⟩⟩]
      = [⟨("r1", "fall"), 100, ⟨"fall", none, none, true⟩⟩,
         ⟨("r1", "fall"), 200, ⟨"fall", none, none, true⟩⟩] by decide] at h
  exact (List.pairwise_cons.mp h).1
    ⟨("r1", "fall"), 200, ⟨"fall", none, none, true⟩⟩ (List.mem_singleton.mpr rfl) rfl

/-! ## C9: rollup bucket monotonicity -/

theorem rollupLe_refl (r : RollupRow) : rollupLe r r := by
  unfold rollupLe
  exact ⟨le_rfl, le_rfl, le_rfl, le_rfl, le_rfl, le_rfl, le_rfl, le_rfl, le_rfl, le_rfl, le_rfl⟩

theorem rollupLe_trans {r1 r2 r3 : RollupRow} (h12 : rollupLe r1 r2) (h23 : rollupLe r2 r3) :
    rollupLe r1 r3 := by
  unfold rollupLe at *
  obtain ⟨a1, b1, c1, d1, e1, f1, g1, i1, j1, k1, l1⟩ := h12
  obtain ⟨a2, b2, c2, d2, e2, f2, g2, i2, j2, k2, l2⟩ := h23
  exact ⟨le_trans a1 a2, le_trans b1 b2, le_trans c1 c2, le_trans d1 d2, le_trans e1 e2,
    le_trans f1 f2, le_trans g1 g2, le_trans i1 i2, le_trans j1 j2, le_trans k1 k2,
    le_trans l1 l2⟩

theorem rollupLeCore_refl (r : RollupRow) : rollupLeCore r r := by
  unfold rollupLeCore
  exact ⟨le_rfl, le_rfl, le_rfl, le_rfl, le_rfl, le_rfl, le_rfl, le_rfl, le_rfl⟩

theorem rollupLeCore_trans {r1 r2 r3 : RollupRow} (h12 : rollupLeCore r1 r2)
    (h23 : rollupLeCore r2 r3) : rollupLeCore r1 r3 := by
  unfold rollupLeCore at *
  obtain ⟨a1, b1, c1, d1, e1, f1, g1, i1, j1⟩ := h12
  obtain ⟨a2, b2, c2, d2, e2, f2, g2, i2, j2⟩ := h23
  exact ⟨le_trans a1 a2, le_trans b1 b2, le_trans c1 c2, le_trans d1 d2, le_trans e1 e2,
    le_trans f1 f2, le_trans g1 g2, le_trans i1 i2, le_trans j1 j2⟩

theorem upsertRow_le (a : RollupArgs) (r : RollupRow) (ha : nonnegArgs a) :
    rollupLe r (upsertRow a r) := by
  obtain ⟨hc, hsv⟩ := ha
  unfold rollupLe upsertRow
  refine ⟨le_of_lt (lt_add_one _), ?_, ?_, ?_, ?_, ?_, ?_, ?_, ?_, ?_,
    le_add_of_nonneg_right (le_max_left 0 _)⟩
  · cases a.steps with
    | none => exact le_rfl
    | some s => exact le_max_left _ _
  · cases hca : a.cadence with
    | none => exact le_rfl
    | some c => have := hc c hca; dsimp only; linarith
  · cases a.cadence with
    | none => exact le_rfl
    | some c => exact le_of_lt (lt_add_one _)
  · cases hsa : a.step_var with
    | none => exact le_rfl
    | some sv => have := hsv sv hsa; dsimp only; linarith
  · cases a.step_var with
    | none => exact le_rfl
    | some sv => exact le_of_lt (lt_add_one _)
  · dsimp only; split <;> omega
  · cases a.tilt_deg with
    | none => exact le_rfl
    | some t => dsimp only; split <;> omega
  · dsimp only; split <;> omega
  · dsimp only; split <;> omega

theorem upsertRow_le_core (a : RollupArgs) (r : RollupRow) :
    rollupLeCore r (upsertRow a r) := by
  unfold rollupLeCore upsertRow
  refine ⟨le_of_lt (lt_add_one _), ?_, ?_, ?_, ?_, ?_, ?_, ?_,
    le_add_of_nonneg_right (le_max_left 0 _)⟩
  · cases a.steps with
    | none => exact le_rfl
    | some s => exact le_max_left _ _
  · cases a.cadence with
    | none => exact le_rfl
    | some c => exact le_of_lt (lt_add_one _)
  · cases a.step_var with
    | none => exact le_rfl
    | some sv => exact le_of_lt (lt_add_one _)
  · dsimp only; split <;> omega
  · cases a.tilt_deg with
    | none => exact le_rfl
    | some t => dsimp only; split <;> omega
  · dsimp only; split <;> omega
  · dsimp only; split <;> omega

theorem optRowLe_trans {le : RollupRow → RollupRow → Prop}
    (htr : ∀ x y z, le x y → le y z → le x z) {o1 o2 o3 : Option RollupRow}
    (h12 : optRowLe le o1 o2) (h23 : optRowLe le o2 o3) : optRowLe le o1 o3 := by
  intro r1 h1
  obtain ⟨r2, h2, l12⟩ := h12 r1 h1
  obtain ⟨r3, h3, l23⟩ := h23 r2 h2
  exact ⟨r3, h3, htr r1 r2 r3 l12 l23⟩

theorem upsert_rollups_optLe {le : RollupRow → RollupRow → Prop}
    (hrefl : ∀ r, le r r) (hstep : ∀ r, le r (upsertRow a r))
    (tbl : RollupTables) (ts : Int) (b : Int) :
    optRowLe le (tbl.hourly b) ((upsert_rollups tbl ts a).hourly b) ∧
    optRowLe le (tbl.daily b) ((upsert_rollups tbl ts a).daily b) := by
  constructor
  · intro r1 h1
    unfold upsert_rollups updMap
    dsimp only
    by_cases hb : b = bucket_start_hour ts
    · rw [if_pos hb, ← hb, h1]
      exact ⟨upsertRow a r1, rfl, hstep r1⟩
    · rw [if_neg hb]
      exact ⟨r1, h1, hrefl r1⟩
  · intro r1 h1
    unfold upsert_rollups updMap
    dsimp only
    by_cases hb : b = date_from_ts ts
    · rw [if_pos hb, ← hb, h1]
      exact ⟨upsertRow a r1, rfl, hstep r1⟩
    · rw [if_neg hb]
      exact ⟨r1, h1, hrefl r1⟩

theorem runRollups_mono {le : RollupRow → RollupRow → Prop}
    (hrefl : ∀ r, le r r) (htr : ∀ x y z, le x y → le y z → le x z)
    (applies : List (Int × RollupArgs)) :
    ∀ tbl : RollupTables, (∀ p ∈ applies, ∀ r, le r (upsertRow p.2 r)) →
      ∀ b : Int,
        optRowLe le (tbl.hourly b) ((runRollups tbl applies).hourly b) ∧
        optRowLe le (tbl.daily b) ((runRollups tbl applies).daily b) := by
  induction applies with
  | nil =>
    intro tbl _ b
    exact ⟨fun r1 h1 => ⟨r1, h1, hrefl r1⟩, fun r1 h1 => ⟨r1, h1, hrefl r1⟩⟩
  | cons p rest ih =>
    intro tbl hstep b
    have h1 := upsert_rollups_optLe hrefl (hstep p (List.mem_cons_self p rest)) tbl p.1 b
    have h2 := ih (upsert_rollups tbl p.1 p.2)
      (fun q hq => hstep q (List.mem_cons_of_mem p hq)) b
    exact ⟨optRowLe_trans htr h1.1 h2.1, optRowLe_trans htr h1.2 h2.2⟩

/-- C9, counterexample: the contract places no lower bound on cadence
samples; applying a negative cadence (−1) decreases `cadence_sum` of an
existing bucket row, refuting unconditional monotonicity of every
listed field. -/
theorem C9_counterexample : ¬ C9_statement := by
  intro h
  have h1 := (h (upsert_rollups emptyRollupTables 0 {}) [(0, { cadence := some (-1) })] 0).1
  obtain ⟨r2, hr2, hle⟩ := h1 (upsertRow {} zeroRollupRow) rfl
  have hval : (runRollups (upsert_rollups emptyRollupTables 0 {})
      [(0, { cadence := some (-1) })]).hourly 0
      = some (upsertRow { cadence := some (-1) } (upsertRow {} zeroRollupRow)) := rfl
  rw [hval] at hr2
  injection hr2 with h2
  rw [← h2] at hle
  have hcad := hle.2.2.1
  norm_num [upsertRow, zeroRollupRow] at hcad

/-- C9, amended: within any bucket of either rollup table, the row is
monotonically non-decreasing in every listed field provided the cadence
and step-variance samples are nonnegative; the count fields, stepsMax,
activeSeconds and the event counters are non-decreasing unconditionally
(only the two running sums can shrink, on a negative sample). -/
theorem C9_rollup_monotonicity :
    (∀ (tbl : RollupTables) (applies : List (Int × RollupArgs)) (b : Int),
      (∀ p ∈ applies, nonnegArgs p.2) →
      optRowLe rollupLe (tbl.hourly b) ((runRollups tbl applies).hourly b) ∧
      optRowLe rollupLe (tbl.daily b) ((runRollups tbl applies).daily b)) ∧
    (∀ (tbl : RollupTables) (applies : List (Int × RollupArgs)) (b : Int),
      optRowLe rollupLeCore (tbl.hourly b) ((runRollups tbl applies).hourly b) ∧
      optRowLe rollupLeCore (tbl.daily b) ((runRollups tbl applies).daily b)) := by
  constructor
  · intro tbl applies b hnn
    exact runRollups_mono rollupLe_refl (fun _ _ _ h12 h23 => rollupLe_trans h12 h23) applies
      tbl (fun p hp r => upsertRow_le p.2 r (hnn p hp)) b
  · intro tbl applies b
    exact runRollups_mono rollupLeCore_refl (fun _ _ _ h12 h23 => rollupLeCore_trans h12 h23)
      applies tbl (fun p _ r => upsertRow_le_core p.2 r) b

/-- C9, witness: one nonnegative-cadence apply grows an existing hourly
row. -/
theorem C9_rollup_monotonicity_witness :
    ∃ r2, (runRollups (upsert_rollups emptyRollupTables 0 {})
        [(0, { cadence := some 1 })]).hourly 0 = some r2 ∧
      rollupLe (upsertRow {} zeroRollupRow) r2 := by
  have h := (C9_rollup_monotonicity.1 (upsert_rollups emptyRollupTables 0 {})
      [(0, { cadence := some 1 })] 0 ?_).1
  · exact h (upsertRow {} zeroRollupRow) rfl
  · intro p hp
    rw [List.mem_singleton.mp hp]
    constructor
    · intro c hcq
      have hc1 : c = 1 := by
        have := Option.some_inj.mp hcq
        exact this.symm ▸ rfl
      rw [hc1]
      norm_num
    · intro sv hsv
      cases hsv

/-! ## C10: per-subject subscribers also sit in the all scope -/

/-- C10: a connection subscribing with a specific subject id is also a
member of the all-updates scope, therefore it receives the
`merged_update` publication of every accepted tick for every subject,
and for a tick of its own subject it appears twice among the recipients
(once through each scope). -/
theorem C10_broadcast_scopes (m : ConnectionManager) (ws : Nat) (rid r : String) :
    ws ∈ (connect m ws (some rid)).all_connections ∧
    ws ∈ tick_recipients (connect m ws (some rid)) r ∧
    (ws ∉ m.all_connections → ws ∉ m.resident_subscribers rid →
      (tick_recipients (connect m ws (some rid)) rid).count ws = 2) := by
  have hall : ws ∈ (connect m ws (some rid)).all_connections := by
    unfold connect insertConn
    dsimp only
    by_cases h : ws ∈ m.all_connections
    · rw [if_pos h]; exact h
    · rw [if_neg h]; exact List.mem_cons_self ws _
  refine ⟨hall, ?_, ?_⟩
  · unfold tick_recipients broadcast_all_recipients broadcast_resident_recipients
    exact List.mem_append_left _ hall
  · intro hnall hnsub
    unfold tick_recipients broadcast_all_recipients broadcast_resident_recipients connect
      insertConn updMap
    dsimp only
    rw [if_pos rfl, if_neg hnall, if_neg hnsub, List.count_append,
      List.count_cons_self, List.count_cons_self,
      List.count_eq_zero.mpr hnall, List.count_eq_zero.mpr hnsub]

/-- C10, witness: a fresh connection subscribing for subject `r1`
receives ticks of subject `r2` and is listed twice for its own. -/
theorem C10_broadcast_scopes_witness :
    7 ∈ (connect emptyConnectionManager 7 (some "r1")).all_connections ∧
    7 ∈ tick_recipients (connect emptyConnectionManager 7 (some "r1")) "r2" ∧
    (tick_recipients (connect emptyConnectionManager 7 (some "r1")) "r1").count 7 = 2 := by
  have h := C10_broadcast_scopes emptyConnectionManager 7 "r1" "r2"
  have h2 := C10_broadcast_scopes emptyConnectionManager 7 "r1" "r1"
  exact ⟨h.1, h.2.1, h2.2.2 (by simp [emptyConnectionManager]) (by simp [emptyConnectionManager])⟩

/-! ## C6: dedupe idempotence -/

theorem update_and_push_preserves_sigs (cfg : IngestConfig) (st : IngestState) (now : Int) :
    ((update_and_push cfg st now).1).lastWalkerSig = st.lastWalkerSig ∧
    ((update_and_push cfg st now).1).lastVisionSig = st.lastVisionSig := by
  unfold update_and_push
  dsimp only
  split_ifs <;> simp

theorem is_duplicate_packet_snd {σ : Type} [DecidableEq σ] (windowMs : Int)
    (st : Option (σ × Int)) (nowMs : Int) (sig : σ) (hw : 0 < windowMs) :
    (is_duplicate_packet windowMs st nowMs sig).2 = some (sig, nowMs) := by
  unfold is_duplicate_packet
  rw [if_neg (by omega)]

theorem is_duplicate_packet_repeat {σ : Type} [DecidableEq σ] (windowMs : Int)
    (pm nowMs : Int) (sig : σ) (hw : 0 < windowMs) (hle : nowMs - pm ≤ windowMs) :
    (is_duplicate_packet windowMs (some (sig, pm)) nowMs sig).1 = true := by
  unfold is_duplicate_packet
  rw [if_neg (by omega)]
  simp [hle]

theorem post_walker_sig (cfg : IngestConfig) (st : IngestState) (now nowMs : Int)
    (p : WalkerPacket) (hwin : 0 < dedupeWindowOf cfg) :
    (post_walker cfg st now nowMs p).1.lastWalkerSig = some (walkerSigBody p, nowMs) := by
  rcases he : is_duplicate_packet (dedupeWindowOf cfg) st.lastWalkerSig nowMs (walkerSigBody p)
    with ⟨d, ns⟩
  have hns : ns = some (walkerSigBody p, nowMs) := by
    have h2 := is_duplicate_packet_snd (dedupeWindowOf cfg) st.lastWalkerSig nowMs
      (walkerSigBody p) hwin
    rw [he] at h2
    exact h2
  unfold post_walker
  rw [he]
  dsimp only
  cases d
  · exact ((update_and_push_preserves_sigs cfg _ now).1).trans hns
  · exact hns

theorem post_walker_dup (cfg : IngestConfig) (st : IngestState) (now nowMs : Int)
    (p : WalkerPacket)
    (hdup : (is_duplicate_packet (dedupeWindowOf cfg) st.lastWalkerSig nowMs
      (walkerSigBody p)).1 = true) :
    post_walker cfg st now nowMs p =
      ({ st with lastWalkerSig := (is_duplicate_packet (dedupeWindowOf cfg)
          st.lastWalkerSig nowMs (walkerSigBody p)).2 },
        { ok := true, deduped := true }) := by
  rcases he : is_duplicate_packet (dedupeWindowOf cfg) st.lastWalkerSig nowMs (walkerSigBody p)
    with ⟨d, ns⟩
  rw [he] at hdup
  subst hdup
  unfold post_walker
  rw [he]
  rfl

theorem post_vision_sig (cfg : IngestConfig) (st : IngestState) (now nowMs : Int)
    (q : VisionPacket) (hwin : 0 < dedupeWindowOf cfg) :
    (post_vision cfg st now nowMs q).1.lastVisionSig = some (visionSigBody q, nowMs) := by
  rcases he : is_duplicate_packet (dedupeWindowOf cfg) st.lastVisionSig nowMs (visionSigBody q)
    with ⟨d, ns⟩
  have hns : ns = some (visionSigBody q, nowMs) := by
    have h2 := is_duplicate_packet_snd (dedupeWindowOf cfg) st.lastVisionSig nowMs
      (visionSigBody q) hwin
    rw [he] at h2
    exact h2
  unfold post_vision
  rw [he]
  dsimp only
  cases d
  · exact ((update_and_push_preserves_sigs cfg _ now).2).trans hns
  · exact hns

theorem post_vision_dup (cfg : IngestConfig) (st : IngestState) (now nowMs : Int)
    (q : VisionPacket)
    (hdup : (is_duplicate_packet (dedupeWindowOf cfg) st.lastVisionSig nowMs
      (visionSigBody q)).1 = true) :
    post_vision cfg st now nowMs q =
      ({ st with lastVisionSig := (is_duplicate_packet (dedupeWindowOf cfg)
          st.lastVisionSig nowMs (visionSigBody q)).2 },
        { ok := true, deduped := true }) := by
  rcases he : is_duplicate_packet (dedupeWindowOf cfg) st.lastVisionSig nowMs (visionSigBody q)
    with ⟨d, ns⟩
  rw [he] at hdup
  subst hdup
  unfold post_vision
  rw [he]
  rfl

/-- C6: for either stream kind, resubmitting the same packet payload
within the dedupe window after the first submission is acknowledged as
a success marked `deduped`, leaves the fused subject state exactly as
it was after the first call, and produces no new rollup apply. -/
theorem C6_dedupe_idempotent (cfg : IngestConfig) (st : IngestState)
    (now1 nowMs1 now2 nowMs2 : Int) (p : WalkerPacket) (q : VisionPacket)
    (hwin : 0 < dedupeWindowOf cfg) (_hord : nowMs1 ≤ nowMs2)
    (hin : nowMs2 - nowMs1 ≤ dedupeWindowOf cfg) :
    ((post_walker cfg (post_walker cfg st now1 nowMs1 p).1 now2 nowMs2 p).2
        = { ok := true, deduped := true } ∧
      (post_walker cfg (post_walker cfg st now1 nowMs1 p).1 now2 nowMs2 p).1.mergedState
        = (post_walker cfg st now1 nowMs1 p).1.mergedState ∧
      (post_walker cfg (post_walker cfg st now1 nowMs1 p).1 now2 nowMs2 p).1.rollupApplies
        = (post_walker cfg st now1 nowMs1 p).1.rollupApplies) ∧
    ((post_vision cfg (post_vision cfg st now1 nowMs1 q).1 now2 nowMs2 q).2
        = { ok := true, deduped := true } ∧
      (post_vision cfg (post_vision cfg st now1 nowMs1 q).1 now2 nowMs2 q).1.mergedState
        = (post_vision cfg st now1 nowMs1 q).1.mergedState ∧
      (post_vision cfg (post_vision cfg st now1 nowMs1 q).1 now2 nowMs2 q).1.rollupApplies
        = (post_vision cfg st now1 nowMs1 q).1.rollupApplies) := by
  constructor
  · have hdup2 : (is_duplicate_packet (dedupeWindowOf cfg)
        (post_walker cfg st now1 nowMs1 p).1.lastWalkerSig nowMs2 (walkerSigBody p)).1
        = true := by
      rw [post_walker_sig cfg st now1 nowMs1 p hwin]
      exact is_duplicate_packet_repeat _ _ _ _ hwin hin
    rw [post_walker_dup cfg _ now2 nowMs2 p hdup2]
    exact ⟨rfl, rfl, rfl⟩
  · have hdup2 : (is_duplicate_packet (dedupeWindowOf cfg)
        (post_vision cfg st now1 nowMs1 q).1.lastVisionSig nowMs2 (visionSigBody q)).1
        = true := by
      rw [post_vision_sig cfg st now1 nowMs1 q hwin]
      exact is_duplicate_packet_repeat _ _ _ _ hwin hin
    rw [post_vision_dup cfg _ now2 nowMs2 q hdup2]
    exact ⟨rfl, rfl, rfl⟩

/-- C6, witness: an identical walker packet 100 ms after the first is
acknowledged as a duplicate under the default 250 ms window. -/
theorem C6_dedupe_idempotent_witness :
    (0 : Int) < dedupeWindowOf {} ∧ (5100 : Int) - 5000 ≤ dedupeWindowOf {} ∧
    (post_walker {} (post_walker {} initialIngestState 1000 5000
        { fsrLeft := 1, fsrRight := 2 }).1 1001 5100 { fsrLeft := 1, fsrRight := 2 }).2
      = { ok := true, deduped := true } := by
  have h := C6_dedupe_idempotent {} initialIngestState 1000 5000 1001 5100
    { fsrLeft := 1, fsrRight := 2 } {} (by decide) (by decide) (by decide)
  exact ⟨by decide, by decide, h.1.1⟩

/-! ## C3: the significant-change gate -/

/-- C3, counterexample: the code compares against the merged state of
the previous accepted tick, not the last durable write.  Trace: tick 1
(steps 1) is written durably; tick 2 (steps 2) arrives inside the
persistence interval and is skipped; tick 3 (steps 1 again, interval
elapsed) is unchanged relative to the last durable write, yet the code
writes it because it differs from the skipped tick 2. -/
theorem C3_counterexample : ¬ C3_statement := by
  intro h
  have h1 := h {}
      [⟨10, some { ts := 10, fsrLeft := 1, fsrRight := 1, steps := some 1 }, none⟩,
       ⟨12, some { ts := 12, fsrLeft := 1, fsrRight := 1, steps := some 2 }, none⟩]
      ⟨20, some { ts := 20, fsrLeft := 1, fsrRight := 1, steps := some 1 }, none⟩
      (by decide) (by decide) (by decide)
  exact absurd h1 (by decide)

theorem ingestTick_merged (cfg : IngestConfig) (st : IngestState) (i : TickInput) :
    ((ingestTick cfg st i).1).mergedState = some (compute_merged i.now i.w i.v) := by
  unfold ingestTick update_and_push
  dsimp only
  split_ifs <;> rfl

/-- C3, amended: on a non-critical tick whose persistence interval has
elapsed, the durable snapshot is written exactly when the merged
metrics changed significantly relative to the merged state of the
previous accepted tick (held in `mergedState`, whether or not that tick
was durably written) — not relative to the last durable write; each
accepted tick then installs its own merged state as the next
comparison point. -/
theorem C3_significance_gate (cfg : IngestConfig) (st : IngestState) (i : TickInput)
    (hcrit : criticalOf (compute_merged i.now i.w i.v).metrics = false)
    (helapsed : persistIntervalOf cfg ≤ i.now - st.lastPersist) :
    (ingestTick cfg st i).2
      = is_significant_change st.mergedState (compute_merged i.now i.w i.v) ∧
    ((ingestTick cfg st i).1).mergedState = some (compute_merged i.now i.w i.v) := by
  refine ⟨?_, ingestTick_merged cfg st i⟩
  unfold ingestTick update_and_push
  dsimp only
  rw [hcrit]
  simp only [Bool.false_or, Bool.false_eq_true, if_false, Bool.not_false, Bool.true_and]
  split_ifs <;>
    first
      | rfl
      | (exfalso; dsimp only at *; omega)
      | (cases hsig : is_significant_change st.mergedState (compute_merged i.now i.w i.v) <;>
          simp_all)

/-- C3, witness: a first tick for a fresh subject (no previous merged
state) is significant and written. -/
theorem C3_significance_gate_witness :
    criticalOf (compute_merged 10
        (some { ts := 10, fsrLeft := 1, fsrRight := 1, steps := some 1 })
        none).metrics = false ∧
    persistIntervalOf {} ≤ (10 : Int) - initialIngestState.lastPersist ∧
    (ingestTick {} initialIngestState
        ⟨10, some { ts := 10, fsrLeft := 1, fsrRight := 1, steps := some 1 }, none⟩).2 = true := by
  have h := C3_significance_gate {} initialIngestState
    ⟨10, some { ts := 10, fsrLeft := 1, fsrRight := 1, steps := some 1 }, none⟩
    (by decide) (by decide)
  refine ⟨by decide, by decide, ?_⟩
  rw [h.1]
  decide

end SmartWalker
